import Mathlib

/-!
Verification development for the container-backed node lifecycle driver
(package `dockerdeploy`: `imageprovider.go`, `controller.go`).

The Go code is shallowly embedded: pure functions become Lean functions,
stateful Docker interactions become explicit state passing over a model of
the Docker daemon, machine integers become `Nat`/`Int`, and fallible calls
return `Except`/`Option`.  Timestamps (`time.Time`) are abstracted as `Int`
values; the JSON layer is modelled at the level of its abstract syntax.
-/

set_option maxRecDepth 2048

namespace Dockerdeploy

/-! ## Image definitions (`imageprovider.go`)

`ImageDef` mirrors the Go struct field for field (`BuildNo` is a Go `int`,
hence `Int`). -/

structure ImageDef where
  Version : String
  BuildNo : Int
  UseCommunityEdition : Bool
  UseServerless : Bool
  UseColumnar : Bool
deriving DecidableEq, Repr

/-! ### The `golang.org/x/mod/semver` comparison

`CompareImageDefs` calls `semver.Compare("v"+a.Version, "v"+b.Version)`.
The embedding below follows that library's `parse`/`compare` pair.  The
library keeps the numeric parts and the prerelease as validated strings and
compares them with `compareInt` (length, then bytewise) and
`comparePrerelease` (dot-separated identifiers; numeric identifiers
numerically, with all-numeric before alphanumeric, and a missing prerelease
above any present one).  Because `parseInt` rejects leading zeros, the
validated numeric strings are in bijection with `Nat` and `compareInt`
coincides with `Nat` comparison, so the embedding parses directly to `Nat`
and to a list of structured prerelease identifiers.  Identifier strings are
ASCII (`isIdentChar`), where Lean's `String` order coincides with Go's
bytewise order. -/

/-- A dot-separated prerelease identifier: all-numeric (no leading zero,
compared numerically) or alphanumeric (compared bytewise). -/
inductive PreIdent where
  | num (n : Nat)
  | alnum (s : String)
deriving DecidableEq, Repr

/-- Result of `semver.parse`: major/minor/patch plus prerelease identifiers
(`[]` when no prerelease is present).  Build metadata is validated by the
parser but dropped, since `semver.Compare` ignores it. -/
structure ParsedVer where
  major : Nat
  minor : Nat
  patch : Nat
  prerelease : List PreIdent
deriving DecidableEq, Repr

def isDigitChar (c : Char) : Bool := '0' ≤ c && c ≤ '9'

/-- `isIdentChar` from x/mod/semver: `[0-9A-Za-z-]`. -/
def isIdentChar (c : Char) : Bool :=
  ('a' ≤ c && c ≤ 'z') || ('A' ≤ c && c ≤ 'Z') || ('0' ≤ c && c ≤ '9') || c == '-'

def digitsToNat (cs : List Char) : Nat :=
  cs.foldl (fun acc c => acc * 10 + (c.toNat - '0'.toNat)) 0

/-- `parseInt` from x/mod/semver: the longest nonempty digit prefix, with a
leading zero allowed only for the single digit `0`. -/
def parseIntSV (cs : List Char) : Option (Nat × List Char) :=
  let digits := cs.takeWhile isDigitChar
  let rest := cs.dropWhile isDigitChar
  if digits.isEmpty then none
  else if digits.head? == some '0' && digits.length != 1 then none
  else some (digitsToNat digits, rest)

/-- `isBadNum` from x/mod/semver: all digits, longer than one char, leading
zero. -/
def isBadNum (cs : List Char) : Bool :=
  cs.all isDigitChar && decide (cs.length > 1) && cs.head? == some '0'

/-- One prerelease identifier, as validated inside `parsePrerelease`:
nonempty, ident chars only, numeric identifiers without leading zeros. -/
def parsePreIdent (cs : List Char) : Option PreIdent :=
  if cs.isEmpty then none
  else if !cs.all isIdentChar then none
  else if cs.all isDigitChar then
    if isBadNum cs then none else some (.num (digitsToNat cs))
  else some (.alnum (String.mk cs))

/-- `parsePrerelease` from x/mod/semver, applied to the text between the
`-` and the `+` (or the end): dot-separated validated identifiers. -/
def parsePrereleaseSV (cs : List Char) : Option (List PreIdent) :=
  (cs.splitOn '.').mapM parsePreIdent

/-- `parseBuild` from x/mod/semver, applied to the text after the `+`:
dot-separated nonempty identifiers (leading zeros allowed). -/
def validBuild (cs : List Char) : Bool :=
  (cs.splitOn '.').all (fun part => !part.isEmpty && part.all isIdentChar)

/-- The prerelease/build tail after `vMAJOR.MINOR.PATCH`. -/
def parseTailSV (major minor patch : Nat) (cs : List Char) : Option ParsedVer :=
  let (pre, rest) :=
    match cs with
    | '-' :: cs' => (some (cs'.takeWhile (· != '+')), cs'.dropWhile (· != '+'))
    | _ => (none, cs)
  let preIds? : Option (List PreIdent) :=
    match pre with
    | none => some []
    | some preChars => parsePrereleaseSV preChars
  match preIds? with
  | none => none
  | some preIds =>
    match rest with
    | [] => some ⟨major, minor, patch, preIds⟩
    | '+' :: buildChars =>
      if validBuild buildChars then some ⟨major, minor, patch, preIds⟩ else none
    | _ => none

/-- `parse` from x/mod/semver: `v` then major, optional `.minor`, optional
`.patch`, optional `-prerelease`, optional `+build`; a missing minor or
patch is `0`; anything left over invalidates the whole version. -/
def parseSV (s : String) : Option ParsedVer :=
  match s.data with
  | 'v' :: rest =>
    match parseIntSV rest with
    | none => none
    | some (major, r1) =>
      match r1 with
      | [] => some ⟨major, 0, 0, []⟩
      | '.' :: r2 =>
        match parseIntSV r2 with
        | none => none
        | some (minor, r3) =>
          match r3 with
          | [] => some ⟨major, minor, 0, []⟩
          | '.' :: r4 =>
            match parseIntSV r4 with
            | none => none
            | some (patch, r5) => parseTailSV major minor patch r5
          | _ => none
      | _ => none
  | _ => none

/-- Comparison of two prerelease identifiers (`comparePrerelease`'s body on
one pair `dx`, `dy`): numeric before alphanumeric, numerics numerically,
alphanumerics bytewise. -/
def preIdentCmp : PreIdent → PreIdent → Ordering
  | .num a, .num b => compare a b
  | .num _, .alnum _ => .lt
  | .alnum _, .num _ => .gt
  | .alnum a, .alnum b => compare a b

/-- Lexicographic walk of `comparePrerelease` over the identifier lists:
identifier by identifier, a list that runs out first is smaller. -/
def preIdentsCmp : List PreIdent → List PreIdent → Ordering
  | [], [] => .eq
  | [], _ :: _ => .lt
  | _ :: _, [] => .gt
  | a :: as, b :: bs => (preIdentCmp a b).then (preIdentsCmp as bs)

/-- `comparePrerelease` from x/mod/semver: a version without prerelease is
above any version with one; otherwise the lexicographic walk. -/
def prereleaseCmp : List PreIdent → List PreIdent → Ordering
  | [], [] => .eq
  | [], _ :: _ => .gt
  | _ :: _, [] => .lt
  | xs, ys => preIdentsCmp xs ys

/-- Pullback of a comparator along a function. -/
def onCmp (f : α → β) (cmp : β → β → Ordering) (a b : α) : Ordering :=
  cmp (f a) (f b)

/-- `semver.Compare` on parsed versions: major, minor, patch, prerelease. -/
def parsedVerCmp : ParsedVer → ParsedVer → Ordering :=
  compareLex (onCmp ParsedVer.major compare) <|
    compareLex (onCmp ParsedVer.minor compare) <|
      compareLex (onCmp ParsedVer.patch compare) (onCmp ParsedVer.prerelease prereleaseCmp)

/-- Lifting to possibly-invalid versions: `semver.Compare` sorts an invalid
version below every valid one and treats two invalid versions as equal. -/
def optionCmp (cmp : α → α → Ordering) : Option α → Option α → Ordering
  | none, none => .eq
  | none, some _ => .lt
  | some _, none => .gt
  | some a, some b => cmp a b

def ordToInt : Ordering → Int
  | .lt => -1
  | .eq => 0
  | .gt => 1

/-- `semver.Compare` (x/mod/semver): parse both versions and compare; the
`-1`/`0`/`+1` convention of the Go function is kept via `ordToInt`. -/
def semverCompare (v w : String) : Int :=
  ordToInt (optionCmp parsedVerCmp (parseSV v) (parseSV w))

/-- `CompareImageDefs` from `imageprovider.go`, step for step: semver on
`"v"+Version`, then `BuildNo`, then community before enterprise, then
non-serverless before serverless, then non-columnar before columnar. -/
def CompareImageDefs (a b : ImageDef) : Int :=
  let c := semverCompare ("v" ++ a.Version) ("v" ++ b.Version)
  if c ≠ 0 then c
  else if a.BuildNo < b.BuildNo then -1
  else if a.BuildNo > b.BuildNo then 1
  else if a.UseCommunityEdition && !b.UseCommunityEdition then -1
  else if !a.UseCommunityEdition && b.UseCommunityEdition then 1
  else if !a.UseServerless && b.UseServerless then -1
  else if a.UseServerless && !b.UseServerless then 1
  else if !a.UseColumnar && b.UseColumnar then -1
  else if a.UseColumnar && !b.UseColumnar then 1
  else 0

/-! ### Lawfulness of the comparators feeding `CompareImageDefs` -/

instance {α β : Type _} (f : α → β) (cmp : β → β → Ordering) [Batteries.OrientedCmp cmp] :
    Batteries.OrientedCmp (onCmp f cmp) where
  symm a b := Batteries.OrientedCmp.symm (f a) (f b)

instance {α β : Type _} (f : α → β) (cmp : β → β → Ordering) [Batteries.TransCmp cmp] :
    Batteries.TransCmp (onCmp f cmp) where
  le_trans {x y z} h1 h2 := by
    have h1' : cmp (f x) (f y) ≠ .gt := h1
    have h2' : cmp (f y) (f z) ≠ .gt := h2
    show cmp (f x) (f z) ≠ .gt
    exact Batteries.TransCmp.le_trans h1' h2'

theorem preIdentCmp_swap : ∀ x y, (preIdentCmp x y).swap = preIdentCmp y x
  | .num a, .num b => by
    show (compare a b).swap = compare b a
    exact Batteries.OrientedCmp.symm a b
  | .num _, .alnum _ => rfl
  | .alnum _, .num _ => rfl
  | .alnum a, .alnum b => by
    show (compare a b).swap = compare b a
    exact Batteries.OrientedCmp.symm a b

theorem preIdentCmp_le_trans :
    ∀ x y z, preIdentCmp x y ≠ .gt → preIdentCmp y z ≠ .gt → preIdentCmp x z ≠ .gt
  | .num a, .num b, .num c, h1, h2 => by
    have h1' : compare a b ≠ .gt := h1
    have h2' : compare b c ≠ .gt := h2
    show compare a c ≠ .gt
    exact Batteries.TransCmp.le_trans h1' h2'
  | .num _, .num _, .alnum _, _, _ => by simp [preIdentCmp]
  | .num _, .alnum _, .num _, _, h2 => absurd rfl h2
  | .num _, .alnum _, .alnum _, _, _ => by simp [preIdentCmp]
  | .alnum _, .num _, _, h1, _ => absurd rfl h1
  | .alnum _, .alnum _, .num _, _, h2 => absurd rfl h2
  | .alnum a, .alnum b, .alnum c, h1, h2 => by
    have h1' : compare a b ≠ .gt := h1
    have h2' : compare b c ≠ .gt := h2
    show compare a c ≠ .gt
    exact Batteries.TransCmp.le_trans h1' h2'

instance : Batteries.TransCmp preIdentCmp where
  symm := preIdentCmp_swap
  le_trans h1 h2 := preIdentCmp_le_trans _ _ _ h1 h2

theorem preIdentsCmp_swap : ∀ xs ys, (preIdentsCmp xs ys).swap = preIdentsCmp ys xs
  | [], [] => rfl
  | [], _ :: _ => rfl
  | _ :: _, [] => rfl
  | a :: as, b :: bs => by
    show ((preIdentCmp a b).then (preIdentsCmp as bs)).swap = _
    rw [Ordering.swap_then, preIdentCmp_swap a b, preIdentsCmp_swap as bs]
    rfl

theorem preIdentsCmp_le_trans :
    ∀ (xs ys zs : List PreIdent),
      preIdentsCmp xs ys ≠ .gt → preIdentsCmp ys zs ≠ .gt → preIdentsCmp xs zs ≠ .gt
  | [], _, [], _, _ => by simp [preIdentsCmp]
  | [], _, _ :: _, _, _ => by simp [preIdentsCmp]
  | _ :: _, [], _, h1, _ => absurd rfl h1
  | _ :: _, _ :: _, [], _, h2 => absurd rfl h2
  | a :: as, b :: bs, c :: cs, h1, h2 => by
    simp only [preIdentsCmp, ne_eq, Ordering.then_eq_gt, not_or, not_and] at h1 h2 ⊢
    obtain ⟨h1a, h1b⟩ := h1
    obtain ⟨h2a, h2b⟩ := h2
    refine ⟨preIdentCmp_le_trans a b c h1a h2a, fun e1 e2 => ?_⟩
    match hab : preIdentCmp a b with
    | .gt => exact h1a hab
    | .eq =>
      have hbc : preIdentCmp b c = .eq := by
        rw [← Batteries.TransCmp.cmp_congr_left hab]
        exact e1
      exact preIdentsCmp_le_trans as bs cs (h1b hab) (h2b hbc) e2
    | .lt =>
      have hcb : preIdentCmp c b = .lt := by
        rw [← Batteries.TransCmp.cmp_congr_left e1]
        exact hab
      exact h2a (Batteries.OrientedCmp.cmp_eq_gt.mpr hcb)

instance : Batteries.TransCmp preIdentsCmp where
  symm := preIdentsCmp_swap
  le_trans {x y z} h1 h2 := preIdentsCmp_le_trans x y z h1 h2

theorem prereleaseCmp_swap : ∀ xs ys, (prereleaseCmp xs ys).swap = prereleaseCmp ys xs
  | [], [] => rfl
  | [], _ :: _ => rfl
  | _ :: _, [] => rfl
  | a :: as, b :: bs => preIdentsCmp_swap (a :: as) (b :: bs)

theorem prereleaseCmp_le_trans :
    ∀ (xs ys zs : List PreIdent),
      prereleaseCmp xs ys ≠ .gt → prereleaseCmp ys zs ≠ .gt → prereleaseCmp xs zs ≠ .gt
  | [], [], [], _, _ => by simp [prereleaseCmp]
  | [], [], _ :: _, _, h2 => absurd rfl h2
  | [], _ :: _, _, h1, _ => absurd rfl h1
  | _ :: _, [], [], _, _ => by simp [prereleaseCmp]
  | _ :: _, [], _ :: _, _, h2 => absurd rfl h2
  | _ :: _, _ :: _, [], _, _ => by simp [prereleaseCmp]
  | a :: as, b :: bs, c :: cs, h1, h2 =>
    preIdentsCmp_le_trans (a :: as) (b :: bs) (c :: cs) h1 h2

instance : Batteries.TransCmp prereleaseCmp where
  symm := prereleaseCmp_swap
  le_trans {x y z} h1 h2 := prereleaseCmp_le_trans x y z h1 h2

theorem optionCmp_swap {α : Type _} (cmp : α → α → Ordering) [Batteries.OrientedCmp cmp] :
    ∀ x y, (optionCmp cmp x y).swap = optionCmp cmp y x
  | none, none => rfl
  | none, some _ => rfl
  | some _, none => rfl
  | some a, some b => by
    show (cmp a b).swap = cmp b a
    exact Batteries.OrientedCmp.symm a b

theorem optionCmp_le_trans {α : Type _} (cmp : α → α → Ordering) [Batteries.TransCmp cmp] :
    ∀ x y z, optionCmp cmp x y ≠ .gt → optionCmp cmp y z ≠ .gt → optionCmp cmp x z ≠ .gt
  | none, _, none, _, _ => by simp [optionCmp]
  | none, _, some _, _, _ => by simp [optionCmp]
  | some _, none, _, h1, _ => absurd rfl h1
  | some _, some _, none, _, h2 => absurd rfl h2
  | some a, some b, some c, h1, h2 => by
    have h1' : cmp a b ≠ .gt := h1
    have h2' : cmp b c ≠ .gt := h2
    show cmp a c ≠ .gt
    exact Batteries.TransCmp.le_trans h1' h2'

instance {α : Type _} (cmp : α → α → Ordering) [Batteries.TransCmp cmp] :
    Batteries.TransCmp (optionCmp cmp) where
  symm := optionCmp_swap cmp
  le_trans {x y z} h1 h2 := optionCmp_le_trans cmp x y z h1 h2

instance : Batteries.TransCmp parsedVerCmp :=
  inferInstanceAs (Batteries.TransCmp
    (compareLex (onCmp ParsedVer.major compare) <|
      compareLex (onCmp ParsedVer.minor compare) <|
        compareLex (onCmp ParsedVer.patch compare) (onCmp ParsedVer.prerelease prereleaseCmp)))

/-- Community edition sorts before enterprise (`true` before `false`). -/
def boolCmpTrueFirst : Bool → Bool → Ordering
  | true, false => .lt
  | false, true => .gt
  | _, _ => .eq

/-- Flag-off sorts before flag-on (`false` before `true`). -/
def boolCmpFalseFirst : Bool → Bool → Ordering
  | false, true => .lt
  | true, false => .gt
  | _, _ => .eq

instance : Batteries.OrientedCmp boolCmpTrueFirst where
  symm x y := by cases x <;> cases y <;> rfl

instance : Batteries.TransCmp boolCmpTrueFirst where
  le_trans {x y z} h1 h2 := by
    cases x <;> cases y <;> cases z <;>
      first
        | decide
        | exact absurd rfl h1
        | exact absurd rfl h2

instance : Batteries.OrientedCmp boolCmpFalseFirst where
  symm x y := by cases x <;> cases y <;> rfl

instance : Batteries.TransCmp boolCmpFalseFirst where
  le_trans {x y z} h1 h2 := by
    cases x <;> cases y <;> cases z <;>
      first
        | decide
        | exact absurd rfl h1
        | exact absurd rfl h2

/-- The `Ordering`-valued key comparison that `CompareImageDefs` computes. -/
def imageDefCmp : ImageDef → ImageDef → Ordering :=
  compareLex (onCmp (fun d => parseSV ("v" ++ d.Version)) (optionCmp parsedVerCmp)) <|
    compareLex (onCmp ImageDef.BuildNo compare) <|
      compareLex (onCmp ImageDef.UseCommunityEdition boolCmpTrueFirst) <|
        compareLex (onCmp ImageDef.UseServerless boolCmpFalseFirst)
          (onCmp ImageDef.UseColumnar boolCmpFalseFirst)

instance : Batteries.TransCmp imageDefCmp :=
  inferInstanceAs (Batteries.TransCmp
    (compareLex (onCmp (fun d : ImageDef => parseSV ("v" ++ d.Version)) (optionCmp parsedVerCmp)) <|
      compareLex (onCmp ImageDef.BuildNo compare) <|
        compareLex (onCmp ImageDef.UseCommunityEdition boolCmpTrueFirst) <|
          compareLex (onCmp ImageDef.UseServerless boolCmpFalseFirst)
            (onCmp ImageDef.UseColumnar boolCmpFalseFirst)))

theorem eq_then (o : Ordering) : Ordering.eq.then o = o := rfl

theorem eq_lt_of_ordToInt_eq_neg_one {o : Ordering} (h : ordToInt o = -1) : o = .lt := by
  cases o
  · rfl
  · exact absurd h (by decide)
  · exact absurd h (by decide)

theorem intCmpStep (x y : Int) (r : Ordering) :
    (if x < y then (-1 : Int) else if x > y then 1 else ordToInt r)
      = ordToInt ((compare x y).then r) := by
  rcases lt_trichotomy x y with h | h | h
  · have hc : compare x y = .lt := Batteries.LTCmp.cmp_iff_lt.mpr h
    rw [hc, if_pos h]
    rfl
  · subst h
    have hc : compare x x = .eq := Batteries.OrientedCmp.cmp_refl
    rw [hc, if_neg (lt_irrefl x), if_neg (lt_irrefl x)]
    rfl
  · have hc : compare x y = .gt := Batteries.LTCmp.cmp_iff_gt.mpr h
    rw [hc, if_neg (not_lt_of_gt h), if_pos h]
    rfl

theorem boolTFStep (x y : Bool) (r : Ordering) :
    (if x && !y then (-1 : Int) else if !x && y then 1 else ordToInt r)
      = ordToInt ((boolCmpTrueFirst x y).then r) := by
  cases x <;> cases y <;> rfl

theorem boolFFStep (x y : Bool) (r : Ordering) :
    (if !x && y then (-1 : Int) else if x && !y then 1 else ordToInt r)
      = ordToInt ((boolCmpFalseFirst x y).then r) := by
  cases x <;> cases y <;> rfl

theorem boolFFLast (x y : Bool) :
    (if !x && y then (-1 : Int) else if x && !y then 1 else 0)
      = ordToInt (boolCmpFalseFirst x y) := by
  cases x <;> cases y <;> rfl

/-- `CompareImageDefs` computes exactly the lexicographic key comparison
`imageDefCmp`, rendered as a Go-style `-1/0/+1` integer. -/
theorem compareImageDefs_eq_ordToInt (a b : ImageDef) :
    CompareImageDefs a b = ordToInt (imageDefCmp a b) := by
  simp only [CompareImageDefs, imageDefCmp, compareLex, onCmp, semverCompare]
  rcases ho :
      optionCmp parsedVerCmp (parseSV ("v" ++ a.Version)) (parseSV ("v" ++ b.Version)) with
    _ | _ | _
  · rfl
  · rw [eq_then, if_neg (by decide : ¬(ordToInt Ordering.eq ≠ 0)), boolFFLast, boolFFStep,
      boolTFStep, intCmpStep]
  · rfl

/-- C1: `CompareImageDefs` is a strict total order on image descriptors:
for every pair exactly one of less/equal/greater holds, comparison of a
descriptor with itself is `equal`, the comparison is antisymmetric, and
strict comparison is transitive.  (The function is pure by construction.) -/
theorem C1_CompareImageDefs_strict_total_order :
    (∀ a : ImageDef, CompareImageDefs a a = 0) ∧
    (∀ a b : ImageDef,
      (CompareImageDefs a b = -1 ∧ ¬CompareImageDefs a b = 0 ∧ ¬CompareImageDefs a b = 1) ∨
      (¬CompareImageDefs a b = -1 ∧ CompareImageDefs a b = 0 ∧ ¬CompareImageDefs a b = 1) ∨
      (¬CompareImageDefs a b = -1 ∧ ¬CompareImageDefs a b = 0 ∧ CompareImageDefs a b = 1)) ∧
    (∀ a b : ImageDef, CompareImageDefs b a = -CompareImageDefs a b) ∧
    (∀ a b c : ImageDef,
      CompareImageDefs a b = -1 → CompareImageDefs b c = -1 → CompareImageDefs a c = -1) := by
  refine ⟨fun a => ?_, fun a b => ?_, fun a b => ?_, fun a b c h1 h2 => ?_⟩
  · rw [compareImageDefs_eq_ordToInt]
    have h : imageDefCmp a a = .eq := Batteries.OrientedCmp.cmp_refl
    rw [h]
    rfl
  · rw [compareImageDefs_eq_ordToInt]
    rcases h : imageDefCmp a b with _ | _ | _ <;> decide
  · rw [compareImageDefs_eq_ordToInt, compareImageDefs_eq_ordToInt]
    have hswap : (imageDefCmp a b).swap = imageDefCmp b a := Batteries.OrientedCmp.symm a b
    rw [← hswap]
    rcases h : imageDefCmp a b with _ | _ | _ <;> decide
  · rw [compareImageDefs_eq_ordToInt] at h1 h2 ⊢
    have h1' : imageDefCmp a b = .lt := eq_lt_of_ordToInt_eq_neg_one h1
    have h2' : imageDefCmp b c = .lt := eq_lt_of_ordToInt_eq_neg_one h2
    have h3 : imageDefCmp a c = .lt := Batteries.TransCmp.lt_trans h1' h2'
    rw [h3]
    rfl

/-- Concrete instantiation of the transitivity component of
`C1_CompareImageDefs_strict_total_order`. -/
theorem C1_CompareImageDefs_strict_total_order_witness :
    CompareImageDefs ⟨"7.0.5", 3, true, false, false⟩ ⟨"7.1.0", 1, false, true, true⟩ = -1 :=
  C1_CompareImageDefs_strict_total_order.2.2.2
    ⟨"7.0.5", 3, true, false, false⟩ ⟨"7.0.5", 4, true, false, false⟩
    ⟨"7.1.0", 1, false, true, true⟩ (by decide) (by decide)

/-! ## Node state store (`controller.go`: `WriteNodeState` / `ReadNodeState`)

The state file's JSON document is modelled at the level of its abstract
syntax: `time.Time` values are abstracted as `Int`, `json.Marshal` of
`DockerNodeStateJson` always yields an object with an `Expiry` field, and
`json.Unmarshal(bytes, &p)` with `p : *DockerNodeStateJson` follows
`encoding/json`: the literal `null` sets the pointer to `nil`, an object
allocates the struct when the pointer is `nil` and assigns only the fields
present in the document, and any other content is a decode error (`bad`
also stands for unreadable/invalid bytes). -/

/-- `DockerNodeState` from `controller.go` (`Expiry time.Time`, abstracted
as `Int`). -/
structure DockerNodeState where
  Expiry : Int
deriving DecidableEq, Repr

/-- `DockerNodeStateJson` from `controller.go`. -/
structure DockerNodeStateJson where
  Expiry : Int
deriving DecidableEq, Repr

/-- Abstract syntax of the bytes held in one tar entry. -/
inductive JsonDoc where
  | null
  | obj (fields : List (String × Int))
  | bad
deriving DecidableEq, Repr

/-- Go JSON object field lookup (later duplicates win). -/
def lookupField (fields : List (String × Int)) (key : String) : Option Int :=
  fields.foldl (fun acc kv => if kv.1 = key then some kv.2 else acc) none

/-- `json.Unmarshal(stateBytes, &nodeStateJson)` where
`nodeStateJson : *DockerNodeStateJson` holds the value decoded so far
(`none` = nil pointer). -/
def unmarshalNodeStateJson (cur : Option DockerNodeStateJson) :
    JsonDoc → Except String (Option DockerNodeStateJson)
  | .null => .ok none
  | .obj fields =>
    match lookupField fields "Expiry" with
    | some t => .ok (some ⟨t⟩)
    | none => .ok (some (cur.getD ⟨0⟩))
  | .bad => .error "failed to parse dyncluster node state data"

/-- `json.Marshal` of the state: an object with the `Expiry` field. -/
def marshalNodeState (s : DockerNodeState) : JsonDoc :=
  .obj [("Expiry", s.Expiry)]

/-- One entry of a transferred archive. -/
structure TarEntry where
  name : String
  content : JsonDoc
deriving DecidableEq, Repr

/-- The files under `/var` inside one container, keyed by path relative to
`/var` (so the state file is `cbdyncluster/state`). -/
abbrev ContainerFS : Type := List TarEntry

/-- Extracting one archive entry over a filesystem overwrites any file of
the same name. -/
def applyTarEntry (fs : ContainerFS) (e : TarEntry) : ContainerFS :=
  (fs.filter fun f => f.name ≠ e.name) ++ [e]

def applyTar (fs : ContainerFS) (t : List TarEntry) : ContainerFS :=
  t.foldl applyTarEntry fs

/-- `WriteNodeState` (`controller.go` 110-137): marshal the state, wrap it
as the single archive entry `cbdyncluster/state`, and copy the archive to
`/var/` of the (reachable) container. -/
def WriteNodeState (fs : ContainerFS) (state : DockerNodeState) : ContainerFS :=
  applyTar fs [⟨"cbdyncluster/state", marshalNodeState state⟩]

inductive CopyErr where
  | unreachable
  | notFound
deriving DecidableEq, Repr

/-- Is `pre` a prefix of `s` (on character lists)? -/
def strHasPre : List Char → List Char → Bool
  | [], _ => true
  | _ :: _, [] => false
  | p :: ps, c :: cs => p == c && strHasPre ps cs

/-- Does a path belong to the `/var/cbdyncluster` subtree? -/
def isUnderStateDir (name : String) : Bool :=
  name == "cbdyncluster" || strHasPre "cbdyncluster/".data name.data

/-- Modelled from the Docker Engine API contract for
`CopyFromContainer(ctx, id, "/var/cbdyncluster")`
(`GET /containers/{id}/archive`): it fails when the container cannot be
reached (`none`) and when the requested path does not exist in the
container, and otherwise returns the archive of the subtree. -/
def copyStateDirFromContainer (c : Option ContainerFS) :
    Except CopyErr (List TarEntry) :=
  match c with
  | none => .error .unreachable
  | some fs =>
    let entries := fs.filter fun e => isUnderStateDir e.name
    if entries.isEmpty then .error .notFound else .ok entries

inductive ReadErr where
  | copyFailed (e : CopyErr)
  | decodeFailed (msg : String)
deriving DecidableEq, Repr

/-- The `for { tarRdr.Next() ... }` loop of `ReadNodeState`: every archive
entry named `cbdyncluster/state` is unmarshalled over `nodeStateJson`;
other entries are skipped; a decode failure aborts. -/
def readTarLoop (cur : Option DockerNodeStateJson) :
    List TarEntry → Except ReadErr (Option DockerNodeStateJson)
  | [] => .ok cur
  | e :: rest =>
    if e.name ≠ "cbdyncluster/state" then readTarLoop cur rest
    else
      match unmarshalNodeStateJson cur e.content with
      | .error m => .error (.decodeFailed m)
      | .ok cur' => readTarLoop cur' rest

/-- `ReadNodeState` (`controller.go` 139-182): copy the
`/var/cbdyncluster` subtree out of the container (an error there is
returned as an error), scan the archive, and return `none` ("no state")
when the decoded pointer ends up nil. -/
def ReadNodeState (c : Option ContainerFS) :
    Except ReadErr (Option DockerNodeState) :=
  match copyStateDirFromContainer c with
  | .error e => .error (.copyFailed e)
  | .ok entries =>
    match readTarLoop none entries with
    | .error e => .error e
    | .ok none => .ok none
    | .ok (some j) => .ok (some ⟨j.Expiry⟩)

/-! ### Properties of the state store (C2, C3, C10) -/

theorem readTarLoop_append_skip (cur : Option DockerNodeStateJson) (l rest : List TarEntry)
    (h : ∀ x ∈ l, x.name ≠ "cbdyncluster/state") :
    readTarLoop cur (l ++ rest) = readTarLoop cur rest := by
  induction l with
  | nil => rfl
  | cons e l ih =>
    have he : e.name ≠ "cbdyncluster/state" := h e (List.mem_cons_self e l)
    show readTarLoop cur (e :: (l ++ rest)) = _
    simp only [readTarLoop]
    rw [if_pos he]
    exact ih fun x hx => h x (List.mem_cons_of_mem e hx)

theorem ReadNodeState_ok_entries (c : Option ContainerFS) (E : List TarEntry)
    (h : copyStateDirFromContainer c = .ok E) :
    ReadNodeState c =
      match readTarLoop none E with
      | .error er => .error er
      | .ok none => .ok none
      | .ok (some j) => .ok (some ⟨j.Expiry⟩) := by
  unfold ReadNodeState
  rw [h]

theorem isEmpty_false_of_ne_nil {α : Type _} {l : List α} (h : l ≠ []) : l.isEmpty = false := by
  cases l
  · exact absurd rfl h
  · rfl

theorem copy_ok_of_under_ne_nil (fs : ContainerFS)
    (h : (fs.filter fun x => isUnderStateDir x.name) ≠ []) :
    copyStateDirFromContainer (some fs) = .ok (fs.filter fun x => isUnderStateDir x.name) := by
  simp only [copyStateDirFromContainer]
  rw [isEmpty_false_of_ne_nil h]
  rfl

/-- C2: the round-trip law for the node state store: on a reachable
resource, `WriteNodeState` followed by `ReadNodeState` returns a non-null
state equal to the written one, whatever the container's `/var` held
before. -/
theorem C2_WriteNodeState_ReadNodeState_roundtrip (fs : ContainerFS) (s : DockerNodeState) :
    ReadNodeState (some (WriteNodeState fs s)) = .ok (some s) := by
  obtain ⟨e⟩ := s
  have hw : WriteNodeState fs ⟨e⟩
      = (fs.filter fun f => f.name ≠ "cbdyncluster/state")
        ++ [⟨"cbdyncluster/state", JsonDoc.obj [("Expiry", e)]⟩] := rfl
  have hcopy : copyStateDirFromContainer (some (WriteNodeState fs ⟨e⟩))
      = .ok (((fs.filter fun f => f.name ≠ "cbdyncluster/state").filter
              fun x => isUnderStateDir x.name)
            ++ [⟨"cbdyncluster/state", JsonDoc.obj [("Expiry", e)]⟩]) := by
    rw [hw]
    simp only [copyStateDirFromContainer]
    rw [List.filter_append]
    rw [show List.filter (fun x : TarEntry => isUnderStateDir x.name)
        [⟨"cbdyncluster/state", JsonDoc.obj [("Expiry", e)]⟩]
        = [⟨"cbdyncluster/state", JsonDoc.obj [("Expiry", e)]⟩] from rfl]
    rw [isEmpty_false_of_ne_nil (by simp)]
    rfl
  rw [ReadNodeState_ok_entries _ _ hcopy]
  have hskip : ∀ x ∈ ((fs.filter fun f => f.name ≠ "cbdyncluster/state").filter
      fun x => isUnderStateDir x.name), x.name ≠ "cbdyncluster/state" := by
    intro x hx
    exact of_decide_eq_true (List.mem_filter.mp (List.mem_filter.mp hx).1).2
  rw [readTarLoop_append_skip none _ _ hskip]
  rfl

/-- C3 counterexample: a reachable resource that never had state written
(its `/var` holds nothing under `cbdyncluster`) makes `ReadNodeState`
return an error — not the distinguished "no state present" result. -/
theorem C3_counterexample_never_written_is_error :
    ReadNodeState (some ([] : ContainerFS)) = .error (.copyFailed .notFound) ∧
    ∀ s : Option DockerNodeState, ReadNodeState (some ([] : ContainerFS)) ≠ .ok s := by
  refine ⟨rfl, fun s h => ?_⟩
  rw [show ReadNodeState (some ([] : ContainerFS)) = .error (.copyFailed .notFound) from rfl] at h
  exact nomatch h

/-- C3 amended: `ReadNodeState` returns an error both when the resource is
unreachable and when the state directory was never created (never
written); the "no state present" result arises only when the state
directory exists but holds no `cbdyncluster/state` entry. -/
theorem C3_ReadNodeState_amended :
    ReadNodeState none = .error (.copyFailed .unreachable) ∧
    (∀ fs : ContainerFS,
      (fs.filter fun x => isUnderStateDir x.name) = [] →
        ReadNodeState (some fs) = .error (.copyFailed .notFound)) ∧
    (∀ fs : ContainerFS,
      (fs.filter fun x => isUnderStateDir x.name) ≠ [] →
      (∀ x ∈ fs, x.name ≠ "cbdyncluster/state") →
        ReadNodeState (some fs) = .ok none) := by
  refine ⟨rfl, fun fs h => ?_, fun fs hne hnames => ?_⟩
  · have hcopy : copyStateDirFromContainer (some fs) = .error .notFound := by
      simp only [copyStateDirFromContainer]
      rw [h]
      rfl
    unfold ReadNodeState
    rw [hcopy]
  · rw [ReadNodeState_ok_entries _ _ (copy_ok_of_under_ne_nil fs hne)]
    have hskip : ∀ x ∈ (fs.filter fun x => isUnderStateDir x.name),
        x.name ≠ "cbdyncluster/state" := fun x hx => hnames x (List.mem_filter.mp hx).1
    have hloop : readTarLoop none (fs.filter fun x => isUnderStateDir x.name) = .ok none := by
      have h0 := readTarLoop_append_skip none (fs.filter fun x => isUnderStateDir x.name) [] hskip
      rw [List.append_nil] at h0
      exact h0
    rw [hloop]

/-- Concrete instantiation of `C3_ReadNodeState_amended`: a reachable
resource whose state directory exists but holds no state entry reads as
"no state". -/
theorem C3_ReadNodeState_amended_witness :
    ReadNodeState (some ([⟨"cbdyncluster/leftover", JsonDoc.bad⟩] : ContainerFS)) = .ok none :=
  C3_ReadNodeState_amended.2.2 [⟨"cbdyncluster/leftover", JsonDoc.bad⟩] (by decide) (by decide)

/-! The decode loop, restricted to the contents of the `cbdyncluster/state`
entries (helpers for C10). -/

def docsLoop (cur : Option DockerNodeStateJson) :
    List JsonDoc → Except ReadErr (Option DockerNodeStateJson)
  | [] => .ok cur
  | d :: rest =>
    match unmarshalNodeStateJson cur d with
    | .error m => .error (.decodeFailed m)
    | .ok cur' => docsLoop cur' rest

theorem readTarLoop_eq_docsLoop (cur : Option DockerNodeStateJson) :
    ∀ l : List TarEntry,
      readTarLoop cur l
        = docsLoop cur ((l.filter fun x => x.name == "cbdyncluster/state").map TarEntry.content)
  | [] => rfl
  | e :: l => by
    by_cases h : e.name = "cbdyncluster/state"
    · have hn : ¬(e.name ≠ "cbdyncluster/state") := fun hne => hne h
      have hstep : readTarLoop cur (e :: l)
          = match unmarshalNodeStateJson cur e.content with
            | .error m => .error (.decodeFailed m)
            | .ok cur' => readTarLoop cur' l := by
        simp only [readTarLoop]
        rw [if_neg hn]
      have hfil : ((e :: l).filter fun x => x.name == "cbdyncluster/state")
          = e :: (l.filter fun x => x.name == "cbdyncluster/state") := by
        simp [List.filter_cons, h]
      rw [hstep, hfil, List.map_cons]
      show _ = docsLoop cur (e.content :: _)
      simp only [docsLoop]
      cases hu : unmarshalNodeStateJson cur e.content with
      | error m => rfl
      | ok cur' => exact readTarLoop_eq_docsLoop cur' l
    · have hstep : readTarLoop cur (e :: l) = readTarLoop cur l := by
        simp only [readTarLoop]
        rw [if_pos h]
      have hfil : ((e :: l).filter fun x => x.name == "cbdyncluster/state")
          = l.filter fun x => x.name == "cbdyncluster/state" := by
        simp [List.filter_cons, h]
      rw [hstep, hfil]
      exact readTarLoop_eq_docsLoop cur l

theorem unmarshal_ok_of_ne_bad (cur : Option DockerNodeStateJson) (d : JsonDoc)
    (h : d ≠ .bad) : ∃ cur', unmarshalNodeStateJson cur d = .ok cur' := by
  cases d with
  | null => exact ⟨none, rfl⟩
  | obj fields =>
    cases hl : lookupField fields "Expiry" with
    | none =>
      refine ⟨some (cur.getD ⟨0⟩), ?_⟩
      simp only [unmarshalNodeStateJson]
      rw [hl]
    | some t =>
      refine ⟨some ⟨t⟩, ?_⟩
      simp only [unmarshalNodeStateJson]
      rw [hl]
  | bad => exact absurd rfl h

theorem docsLoop_last_null (cur : Option DockerNodeStateJson) :
    ∀ ds : List JsonDoc, (∀ d ∈ ds, d ≠ JsonDoc.bad) →
      docsLoop cur (ds ++ [JsonDoc.null]) = .ok none
  | [], _ => rfl
  | d :: ds, h => by
    obtain ⟨cur', hc⟩ := unmarshal_ok_of_ne_bad cur d (h d (List.mem_cons_self d ds))
    show docsLoop cur (d :: (ds ++ [JsonDoc.null])) = .ok none
    simp only [docsLoop]
    rw [hc]
    exact docsLoop_last_null cur' ds fun x hx => h x (List.mem_cons_of_mem d hx)

theorem docsLoop_last_obj (cur : Option DockerNodeStateJson) (fields : List (String × Int))
    (t : Int) (ht : lookupField fields "Expiry" = some t) :
    ∀ ds : List JsonDoc, (∀ d ∈ ds, d ≠ JsonDoc.bad) →
      docsLoop cur (ds ++ [JsonDoc.obj fields]) = .ok (some ⟨t⟩)
  | [], _ => by
    show docsLoop cur [JsonDoc.obj fields] = _
    simp only [docsLoop, unmarshalNodeStateJson]
    rw [ht]
  | d :: ds, h => by
    obtain ⟨cur', hc⟩ := unmarshal_ok_of_ne_bad cur d (h d (List.mem_cons_self d ds))
    show docsLoop cur (d :: (ds ++ [JsonDoc.obj fields])) = _
    simp only [docsLoop]
    rw [hc]
    exact docsLoop_last_obj cur' fields t ht ds fun x hx => h x (List.mem_cons_of_mem d hx)

theorem filter_under_filter_state (fs : ContainerFS) :
    ((fs.filter fun x => isUnderStateDir x.name).filter
        fun x => x.name == "cbdyncluster/state")
      = fs.filter fun x => x.name == "cbdyncluster/state" := by
  induction fs with
  | nil => rfl
  | cons e fs ih =>
    by_cases h : e.name = "cbdyncluster/state"
    · have hu : isUnderStateDir e.name = true := by rw [h]; rfl
      have hb : (e.name == "cbdyncluster/state") = true := by rw [h]; rfl
      simp [List.filter_cons, hu, hb, ih]
    · have hb : (e.name == "cbdyncluster/state") = false := by
        simp [h]
      cases hu : isUnderStateDir e.name
      · simp [List.filter_cons, hu, hb, ih]
      · simp [List.filter_cons, hu, hb, ih]

/-- C10 counterexample: two archives whose last `cbdyncluster/state` entry
is the same (an object without an `Expiry` field) decode to different
states, because `json.Unmarshal` into the already-populated pointer keeps
the previously decoded expiry: the last entry alone does not determine the
returned state. -/
theorem C10_counterexample_last_entry_does_not_determine :
    ReadNodeState (some ([⟨"cbdyncluster/state", JsonDoc.obj [("Expiry", 5)]⟩,
        ⟨"cbdyncluster/state", JsonDoc.obj []⟩] : ContainerFS))
      = .ok (some ⟨5⟩) ∧
    ReadNodeState (some ([⟨"cbdyncluster/state", JsonDoc.obj []⟩] : ContainerFS))
      = .ok (some ⟨0⟩) ∧
    (some (⟨5⟩ : DockerNodeState)) ≠ some ⟨0⟩ := by
  refine ⟨rfl, rfl, by decide⟩

/-- C10 amended: a `cbdyncluster/state` entry decoding to JSON `null`
resets the decoded state to nil, so when the last such entry is `null`
(and no earlier one is undecodable) `ReadNodeState` returns the "no state"
result; when the last such entry is an object carrying an `Expiry` field,
that field's value is the returned state.  (An object entry without an
`Expiry` field instead inherits the previously decoded value, so in
general the last entry alone does not determine the result.) -/
theorem C10_ReadNodeState_amended :
    (∀ (fs : ContainerFS) (ds : List JsonDoc),
      ((fs.filter fun x => x.name == "cbdyncluster/state").map TarEntry.content)
          = ds ++ [JsonDoc.null] →
      (∀ d ∈ ds, d ≠ JsonDoc.bad) →
        ReadNodeState (some fs) = .ok none) ∧
    (∀ (fs : ContainerFS) (ds : List JsonDoc) (fields : List (String × Int)) (t : Int),
      ((fs.filter fun x => x.name == "cbdyncluster/state").map TarEntry.content)
          = ds ++ [JsonDoc.obj fields] →
      (∀ d ∈ ds, d ≠ JsonDoc.bad) →
      lookupField fields "Expiry" = some t →
        ReadNodeState (some fs) = .ok (some ⟨t⟩)) := by
  have hunder : ∀ (fs : ContainerFS) (l : List JsonDoc),
      ((fs.filter fun x => x.name == "cbdyncluster/state").map TarEntry.content) = l →
      l ≠ [] → (fs.filter fun y => isUnderStateDir y.name) ≠ [] := by
    intro fs l hmap hl
    have hfe : (fs.filter fun x => x.name == "cbdyncluster/state") ≠ [] := by
      intro h0
      rw [h0] at hmap
      exact hl hmap.symm
    obtain ⟨x, hx⟩ := List.exists_mem_of_ne_nil _ hfe
    have hx' := List.mem_filter.mp hx
    have hxname : x.name = "cbdyncluster/state" := eq_of_beq hx'.2
    have hxu : x ∈ fs.filter fun y => isUnderStateDir y.name := by
      refine List.mem_filter.mpr ⟨hx'.1, ?_⟩
      rw [hxname]
      rfl
    exact List.ne_nil_of_mem hxu
  constructor
  · intro fs ds hmap hds
    have hne := hunder fs _ hmap (by simp)
    rw [ReadNodeState_ok_entries _ _ (copy_ok_of_under_ne_nil fs hne)]
    rw [readTarLoop_eq_docsLoop, filter_under_filter_state, hmap]
    rw [docsLoop_last_null none ds hds]
  · intro fs ds fields t hmap hds ht
    have hne := hunder fs _ hmap (by simp)
    rw [ReadNodeState_ok_entries _ _ (copy_ok_of_under_ne_nil fs hne)]
    rw [readTarLoop_eq_docsLoop, filter_under_filter_state, hmap]
    rw [docsLoop_last_obj none fields t ht ds hds]

/-- Concrete instantiation of `C10_ReadNodeState_amended`: an archive whose
last state entry is `null` reads as "no state" even though an earlier entry
carried an expiry. -/
theorem C10_ReadNodeState_amended_witness :
    ReadNodeState (some ([⟨"cbdyncluster/state", JsonDoc.obj [("Expiry", 7)]⟩,
        ⟨"cbdyncluster/state", JsonDoc.null⟩] : ContainerFS)) = .ok none :=
  C10_ReadNodeState_amended.1
    [⟨"cbdyncluster/state", JsonDoc.obj [("Expiry", 7)]⟩,
      ⟨"cbdyncluster/state", JsonDoc.null⟩]
    [JsonDoc.obj [("Expiry", 7)]] rfl (by decide)

/-! ## Containers, `parseContainerInfo` and `ListNodes` (`controller.go`)

A backend container is modelled by its identifier, its labels (Go map
lookup of a missing key returns `""`), its attached network endpoints
(`NetworkSettings.Networks`; the Go map's iteration order is unspecified,
modelled here as list order), its running flag and its `/var` contents. -/

structure EndpointSettings where
  IPAddress : String
deriving DecidableEq, Repr

structure Container where
  ID : String
  Labels : List (String × String)
  Networks : List EndpointSettings
  Running : Bool
  fs : ContainerFS
deriving DecidableEq

/-- Go map indexing with the string zero value for a missing key
(`container.Labels["…"]`); later duplicates win as in a map literal. -/
def getLabel (labels : List (String × String)) (key : String) : String :=
  (labels.foldl (fun acc kv => if kv.1 = key then some kv.2 else acc) none).getD ""

/-- `NodeInfo` from `controller.go` (expiry abstracted as `Int`,
`time.Time{}` as `0`). -/
structure NodeInfo where
  ContainerID : String
  NodeID : String
  ClusterID : String
  Name : String
  Creator : String
  Owner : String
  Purpose : String
  Expiry : Int
  IPAddress : String
  InitialServerVersion : String
deriving DecidableEq, Repr

/-- `for _, network := range container.NetworkSettings.Networks {
pickedNetwork = network }`: keeps the last endpoint iterated, `none` when
no network is attached. -/
def pickNetwork (nets : List EndpointSettings) : Option EndpointSettings :=
  nets.foldl (fun _ n => some n) none

/-- Outcome of `parseContainerInfo`: `nil` for a non-cbdyncluster
container, a node record, or — when the container has no attached network —
the nil-pointer dereference of `pickedNetwork.IPAddress`. -/
inductive ParseResult where
  | notDyncluster
  | nilDerefPanic
  | node (info : NodeInfo)
deriving DecidableEq, Repr

/-- `parseContainerInfo` (`controller.go` 41-71): read the labels, drop the
container when the cluster id label is absent or empty, pick one attached
network endpoint and read its IP address unconditionally. -/
def parseContainerInfo (c : Container) : ParseResult :=
  let clusterID := getLabel c.Labels "com.couchbase.dyncluster.cluster_id"
  let nodeID := getLabel c.Labels "com.couchbase.dyncluster.node_id"
  let nodeName := getLabel c.Labels "com.couchbase.dyncluster.node_name"
  let creator := getLabel c.Labels "com.couchbase.dyncluster.creator"
  let purpose := getLabel c.Labels "com.couchbase.dyncluster.purpose"
  let initialServerVersion := getLabel c.Labels "com.couchbase.dyncluster.initial_server_version"
  if clusterID = "" then .notDyncluster
  else
    match pickNetwork c.Networks with
    | none => .nilDerefPanic
    | some nw =>
      .node {
        ContainerID := c.ID
        NodeID := nodeID
        ClusterID := clusterID
        Name := nodeName
        Creator := creator
        Owner := ""
        Purpose := purpose
        Expiry := 0
        IPAddress := nw.IPAddress
        InitialServerVersion := initialServerVersion }

/-- The expiry patch-up of `ListNodes`: a successful, non-nil state read
overrides the zero expiry; a failed or nil read leaves it. -/
def nodeExpiry (c : Container) : Int :=
  match ReadNodeState (some c.fs) with
  | .ok (some s) => s.Expiry
  | _ => 0

/-- A Go panic aborts the enumeration. -/
inductive Panicked where
  | nilDeref
deriving DecidableEq, Repr

/-- The loop body of `ListNodes` (`controller.go` 87-97) over an already
fetched container list. -/
def listNodesLoop : List Container → Except Panicked (List NodeInfo)
  | [] => .ok []
  | c :: rest =>
    match parseContainerInfo c with
    | .notDyncluster => listNodesLoop rest
    | .nilDerefPanic => .error .nilDeref
    | .node info =>
      match listNodesLoop rest with
      | .error e => .error e
      | .ok nodes => .ok ({ info with Expiry := nodeExpiry c } :: nodes)

/-- `ListNodes` (`controller.go` 73-100) applied to the container list the
backend returned. -/
def ListNodes (containers : List Container) : Except Panicked (List NodeInfo) :=
  listNodesLoop containers

theorem parse_node_cluster_id (c : Container) (info : NodeInfo)
    (h : parseContainerInfo c = .node info) : info.ClusterID ≠ "" := by
  simp only [parseContainerInfo] at h
  by_cases hc : getLabel c.Labels "com.couchbase.dyncluster.cluster_id" = ""
  · rw [if_pos hc] at h
    exact nomatch h
  · rw [if_neg hc] at h
    cases hn : pickNetwork c.Networks with
    | none =>
      rw [hn] at h
      exact nomatch h
    | some nw =>
      rw [hn] at h
      injection h with h'
      subst h'
      exact hc

theorem listNodesLoop_cluster_id :
    ∀ (containers : List Container) (nodes : List NodeInfo),
      listNodesLoop containers = .ok nodes → ∀ n ∈ nodes, n.ClusterID ≠ ""
  | [], nodes, h => by
    injection h with h'
    subst h'
    intro n hn
    exact absurd hn (List.not_mem_nil n)
  | c :: rest, nodes, h => by
    revert h
    simp only [listNodesLoop]
    cases hp : parseContainerInfo c with
    | notDyncluster => exact fun h => listNodesLoop_cluster_id rest nodes h
    | nilDerefPanic => exact fun h => nomatch h
    | node info =>
      cases hr : listNodesLoop rest with
      | error e => exact fun h => nomatch h
      | ok ns =>
        intro h
        injection h with h'
        subst h'
        intro n hn
        rcases List.mem_cons.mp hn with h1 | h2
        · subst h1
          exact parse_node_cluster_id c info hp
        · exact listNodesLoop_cluster_id rest ns hr n h2

/-- C8: `ListNodes` never returns an entry built from a container whose
cluster-identifier label is absent or empty: every listed node carries a
non-empty `ClusterID`. -/
theorem C8_ListNodes_never_missing_cluster_label
    (containers : List Container) (nodes : List NodeInfo)
    (h : ListNodes containers = .ok nodes) :
    ∀ n ∈ nodes, n.ClusterID ≠ "" :=
  listNodesLoop_cluster_id containers nodes h

/-- Concrete instantiation of `C8_ListNodes_never_missing_cluster_label`:
an unlabelled container is filtered out and the labelled one keeps its
cluster id. -/
theorem C8_ListNodes_never_missing_cluster_label_witness :
    ({ ContainerID := "id2", NodeID := "", ClusterID := "cl1", Name := "", Creator := "",
       Owner := "", Purpose := "", Expiry := 0, IPAddress := "10.0.0.2",
       InitialServerVersion := "" } : NodeInfo).ClusterID ≠ "" :=
  C8_ListNodes_never_missing_cluster_label
    [⟨"id1", [("other", "x")], [⟨"10.0.0.1"⟩], true, []⟩,
     ⟨"id2", [("com.couchbase.dyncluster.cluster_id", "cl1")], [⟨"10.0.0.2"⟩], true, []⟩]
    [{ ContainerID := "id2", NodeID := "", ClusterID := "cl1", Name := "", Creator := "",
       Owner := "", Purpose := "", Expiry := 0, IPAddress := "10.0.0.2",
       InitialServerVersion := "" }]
    rfl
    { ContainerID := "id2", NodeID := "", ClusterID := "cl1", Name := "", Creator := "",
      Owner := "", Purpose := "", Expiry := 0, IPAddress := "10.0.0.2",
      InitialServerVersion := "" }
    (List.mem_singleton.mpr rfl)

theorem pick_foldl_cons :
    ∀ (nets : List EndpointSettings) (a : EndpointSettings) (acc : Option EndpointSettings),
      ∃ nw, (a :: nets).foldl (fun _ n => some n) acc = some nw ∧ nw ∈ a :: nets
  | [], a, _ => ⟨a, rfl, List.mem_singleton.mpr rfl⟩
  | b :: nets, a, acc => by
    obtain ⟨nw, h1, h2⟩ := pick_foldl_cons nets b (some a)
    exact ⟨nw, h1, List.mem_cons_of_mem a h2⟩

theorem listNodesLoop_panic :
    ∀ cs : List Container, (∃ c ∈ cs, parseContainerInfo c = .nilDerefPanic) →
      listNodesLoop cs = .error .nilDeref
  | [], h => absurd h (by simp)
  | c :: rest, h => by
    simp only [listNodesLoop]
    cases hp : parseContainerInfo c with
    | notDyncluster =>
      apply listNodesLoop_panic rest
      rcases h with ⟨x, hx, hpx⟩
      rcases List.mem_cons.mp hx with h1 | h2
      · subst h1
        rw [hp] at hpx
        exact nomatch hpx
      · exact ⟨x, h2, hpx⟩
    | nilDerefPanic => rfl
    | node info =>
      have hrec : listNodesLoop rest = .error .nilDeref := by
        apply listNodesLoop_panic rest
        rcases h with ⟨x, hx, hpx⟩
        rcases List.mem_cons.mp hx with h1 | h2
        · subst h1
          rw [hp] at hpx
          exact nomatch hpx
        · exact ⟨x, h2, hpx⟩
      rw [hrec]

/-- C9: `parseContainerInfo` reads the IP address of one attached network
endpoint unconditionally.  For a container carrying a non-empty
cluster-identifier label: with no attached network the access is the nil
dereference (and a whole `ListNodes` enumeration containing such a
container faults rather than returning an error value); with at least one
endpoint it returns a node whose address comes from one of the attached
endpoints. -/
theorem C9_parseContainerInfo_unconditional_network_access
    (c : Container)
    (hlab : getLabel c.Labels "com.couchbase.dyncluster.cluster_id" ≠ "") :
    (c.Networks = [] →
      parseContainerInfo c = .nilDerefPanic ∧
      ∀ cs : List Container, c ∈ cs → ListNodes cs = .error .nilDeref) ∧
    (c.Networks ≠ [] →
      ∃ info nw, nw ∈ c.Networks ∧ parseContainerInfo c = .node info ∧
        info.IPAddress = nw.IPAddress) := by
  constructor
  · intro hno
    have hpanic : parseContainerInfo c = .nilDerefPanic := by
      simp only [parseContainerInfo]
      rw [if_neg hlab]
      have : pickNetwork c.Networks = none := by rw [hno]; rfl
      rw [this]
    exact ⟨hpanic, fun cs hcs => listNodesLoop_panic cs ⟨c, hcs, hpanic⟩⟩
  · intro hne
    rcases hcn : c.Networks with _ | ⟨a, rest⟩
    · exact absurd hcn hne
    · obtain ⟨nw, hpick, hmem⟩ := pick_foldl_cons rest a none
      have hpick' : pickNetwork c.Networks = some nw := by rw [hcn]; exact hpick
      refine ⟨{ ContainerID := c.ID,
                NodeID := getLabel c.Labels "com.couchbase.dyncluster.node_id",
                ClusterID := getLabel c.Labels "com.couchbase.dyncluster.cluster_id",
                Name := getLabel c.Labels "com.couchbase.dyncluster.node_name",
                Creator := getLabel c.Labels "com.couchbase.dyncluster.creator",
                Owner := "",
                Purpose := getLabel c.Labels "com.couchbase.dyncluster.purpose",
                Expiry := 0,
                IPAddress := nw.IPAddress,
                InitialServerVersion :=
                  getLabel c.Labels "com.couchbase.dyncluster.initial_server_version" },
              nw, ?_, ?_, rfl⟩
      · exact hmem
      · simp only [parseContainerInfo]
        rw [if_neg hlab, hpick']

/-- Concrete instantiation of
`C9_parseContainerInfo_unconditional_network_access`: a labelled container
with zero attached networks faults the parse and the whole listing. -/
theorem C9_parseContainerInfo_unconditional_network_access_witness :
    parseContainerInfo ⟨"x1", [("com.couchbase.dyncluster.cluster_id", "cl")], [], true, []⟩
        = .nilDerefPanic ∧
    ListNodes [⟨"x1", [("com.couchbase.dyncluster.cluster_id", "cl")], [], true, []⟩]
        = .error .nilDeref :=
  ⟨((C9_parseContainerInfo_unconditional_network_access
      ⟨"x1", [("com.couchbase.dyncluster.cluster_id", "cl")], [], true, []⟩
      (by decide)).1 rfl).1,
   ((C9_parseContainerInfo_unconditional_network_access
      ⟨"x1", [("com.couchbase.dyncluster.cluster_id", "cl")], [], true, []⟩
      (by decide)).1 rfl).2
     [⟨"x1", [("com.couchbase.dyncluster.cluster_id", "cl")], [], true, []⟩]
     (List.mem_singleton.mpr rfl)⟩

/-! ## `RemoveNode` (`controller.go` 269-312)

The Docker daemon is modelled as the list of its containers; between the
calls of one `RemoveNode` invocation nothing else mutates it. -/

/-- Modelled from the Docker Engine API contract for `ContainerStop`
(`POST /containers/{id}/stop`): stopping an existing container succeeds
whether or not it is running (the daemon's 304 "container already stopped"
is not an error in the client), while a missing container is a 404
error. -/
def containerStop (st : List Container) (id : String) : Except String (List Container) :=
  if st.any fun c => c.ID == id then
    .ok (st.map fun c => if c.ID == id then { c with Running := false } else c)
  else .error "No such container"

/-- Modelled from the Docker Engine API contract for `ContainerRemove`
(`DELETE /containers/{id}`): removes an existing (stopped) container,
errors for a missing one. -/
def containerRemove (st : List Container) (id : String) : Except String (List Container) :=
  if st.any fun c => c.ID == id then
    .ok (st.filter fun c => c.ID != id)
  else .error "No such container"

/-- `RemoveNode` calls `ContainerRemove` and discards its error ("we try
to call remove to force it to be removed"). -/
def removeBestEffort (st : List Container) (id : String) : List Container :=
  match containerRemove st id with
  | .ok st' => st'
  | .error _ => st

inductive RemoveErr where
  | stopFailed (msg : String)
  | listPanicked
  | pollFuelExhausted
deriving DecidableEq, Repr

/-- The `for { ListNodes; … time.Sleep(100ms) }` wait of `RemoveNode`,
given fuel for the unbounded loop (the daemon state is static here, so one
iteration decides). -/
def removePollLoop (st : List Container) (id : String) : Nat → Except RemoveErr Unit
  | 0 => .error .pollFuelExhausted
  | fuel + 1 =>
    match ListNodes st with
    | .error _ => .error .listPanicked
    | .ok nodes =>
      if nodes.any fun n => n.ContainerID == id then removePollLoop st id fuel
      else .ok ()

def removePhase (st₁ : List Container) (id : String) (fuel : Nat) :
    Except RemoveErr (List Container) :=
  match removePollLoop (removeBestEffort st₁ id) id fuel with
  | .error e => .error e
  | .ok _ => .ok (removeBestEffort st₁ id)

/-- `RemoveNode`: stop (an error is returned wrapped), remove best-effort,
then poll the listing until the identifier no longer appears. -/
def RemoveNode (st : List Container) (id : String) (fuel : Nat) :
    Except RemoveErr (List Container) :=
  match containerStop st id with
  | .error m => .error (.stopFailed m)
  | .ok st₁ => removePhase st₁ id fuel

/-- C4 counterexample: `RemoveNode` on a backing resource that is already
gone — in particular any second call after a successful removal — returns
a hard error from the stop step, so removal is not idempotent for
already-removed nodes.  (The first conjunct is the successful first
removal of a present container; the second is the repeated call on the
resulting state.) -/
theorem C4_counterexample_second_remove_errors :
    RemoveNode [⟨"n1", [], [], true, []⟩] "n1" 1 = .ok [] ∧
    RemoveNode ([] : List Container) "n1" 1 = .error (.stopFailed "No such container") :=
  ⟨rfl, rfl⟩

theorem listNodesLoop_ok_of_safe :
    ∀ cs : List Container, (∀ c ∈ cs, parseContainerInfo c ≠ .nilDerefPanic) →
      ∃ nodes, listNodesLoop cs = .ok nodes
  | [], _ => ⟨[], rfl⟩
  | c :: rest, h => by
    obtain ⟨nodes, hn⟩ :=
      listNodesLoop_ok_of_safe rest fun x hx => h x (List.mem_cons_of_mem c hx)
    simp only [listNodesLoop]
    cases hp : parseContainerInfo c with
    | notDyncluster => exact ⟨nodes, hn⟩
    | nilDerefPanic => exact absurd hp (h c (List.mem_cons_self c rest))
    | node info =>
      rw [hn]
      exact ⟨_, rfl⟩

theorem listNodesLoop_containerIDs :
    ∀ (cs : List Container) (nodes : List NodeInfo),
      listNodesLoop cs = .ok nodes → ∀ n ∈ nodes, ∃ c ∈ cs, n.ContainerID = c.ID
  | [], nodes, h => by
    injection h with h'
    subst h'
    intro n hn
    exact absurd hn (List.not_mem_nil n)
  | c :: rest, nodes, h => by
    revert h
    simp only [listNodesLoop]
    cases hp : parseContainerInfo c with
    | notDyncluster =>
      intro h
      intro n hn
      obtain ⟨x, hx, hid⟩ := listNodesLoop_containerIDs rest nodes h n hn
      exact ⟨x, List.mem_cons_of_mem c hx, hid⟩
    | nilDerefPanic => exact fun h => nomatch h
    | node info =>
      cases hr : listNodesLoop rest with
      | error e => exact fun h => nomatch h
      | ok ns =>
        intro h
        injection h with h'
        subst h'
        intro n hn
        rcases List.mem_cons.mp hn with h1 | h2
        · subst h1
          refine ⟨c, List.mem_cons_self c rest, ?_⟩
          have : info.ContainerID = c.ID := by
            simp only [parseContainerInfo] at hp
            by_cases hc : getLabel c.Labels "com.couchbase.dyncluster.cluster_id" = ""
            · rw [if_pos hc] at hp
              exact nomatch hp
            · rw [if_neg hc] at hp
              cases hnw : pickNetwork c.Networks with
              | none =>
                rw [hnw] at hp
                exact nomatch hp
              | some nw =>
                rw [hnw] at hp
                injection hp with hp'
                subst hp'
                rfl
          exact this
        · obtain ⟨x, hx, hid⟩ := listNodesLoop_containerIDs rest ns hr n h2
          exact ⟨x, List.mem_cons_of_mem c hx, hid⟩

theorem parse_safe_of (c : Container)
    (h : getLabel c.Labels "com.couchbase.dyncluster.cluster_id" ≠ "" → c.Networks ≠ []) :
    parseContainerInfo c ≠ .nilDerefPanic := by
  simp only [parseContainerInfo]
  by_cases hc : getLabel c.Labels "com.couchbase.dyncluster.cluster_id" = ""
  · rw [if_pos hc]
    exact fun hh => nomatch hh
  · rw [if_neg hc]
    rcases hcn : c.Networks with _ | ⟨a, rest⟩
    · exact absurd hcn (h hc)
    · obtain ⟨nw, hpick, _⟩ := pick_foldl_cons rest a none
      rw [show pickNetwork (a :: rest) = some nw from hpick]
      exact fun hh => nomatch hh

theorem RemoveNode_stop_ok (st : List Container) (id : String) (fuel : Nat)
    (st₁ : List Container) (h : containerStop st id = .ok st₁) :
    RemoveNode st id fuel = removePhase st₁ id fuel := by
  unfold RemoveNode
  rw [h]

theorem RemoveNode_stop_error (st : List Container) (id : String) (fuel : Nat)
    (m : String) (h : containerStop st id = .error m) :
    RemoveNode st id fuel = .error (.stopFailed m) := by
  unfold RemoveNode
  rw [h]

theorem removePhase_ok (st₁ : List Container) (id : String) (fuel : Nat)
    (h : removePollLoop (removeBestEffort st₁ id) id fuel = .ok ()) :
    removePhase st₁ id fuel = .ok (removeBestEffort st₁ id) := by
  unfold removePhase
  rw [h]

theorem removePollLoop_ok (st : List Container) (id : String) (k : Nat)
    (nodes : List NodeInfo) (h1 : ListNodes st = .ok nodes)
    (h2 : (nodes.any fun n => n.ContainerID == id) = false) :
    removePollLoop st id (k + 1) = .ok () := by
  simp only [removePollLoop]
  rw [h1]
  show (if (nodes.any fun n => n.ContainerID == id) = true
      then removePollLoop st id k else .ok ()) = .ok ()
  rw [h2]
  rfl

/-- C4 amended: `RemoveNode` does complete without a hard error whenever
the backing resource is still present — running or already stopped — by
stopping it, removing it best-effort and polling the listing once it no
longer appears; but on a resource that is already gone (such as a second
call after a successful removal) the stop request fails and `RemoveNode`
returns that failure as a hard error. -/
theorem C4_RemoveNode_amended :
    (∀ (st : List Container) (id : String) (fuel : Nat),
      fuel ≥ 1 →
      (∃ c ∈ st, c.ID = id) →
      (∀ c ∈ st,
        getLabel c.Labels "com.couchbase.dyncluster.cluster_id" ≠ "" → c.Networks ≠ []) →
      RemoveNode st id fuel
        = .ok ((st.map fun c => if c.ID == id then { c with Running := false } else c).filter
            fun c => c.ID != id)) ∧
    (∀ (st : List Container) (id : String) (fuel : Nat),
      (∀ c ∈ st, c.ID ≠ id) →
      RemoveNode st id fuel = .error (.stopFailed "No such container")) := by
  have hfid : ∀ (x : Container) (id : String),
      ((if x.ID == id then { x with Running := false } else x) : Container).ID = x.ID := by
    intro x id
    by_cases hx : (x.ID == id) = true
    · rw [if_pos hx]
    · rw [if_neg hx]
  have hflab : ∀ (x : Container) (id : String),
      ((if x.ID == id then { x with Running := false } else x) : Container).Labels = x.Labels := by
    intro x id
    by_cases hx : (x.ID == id) = true
    · rw [if_pos hx]
    · rw [if_neg hx]
  have hfnet : ∀ (x : Container) (id : String),
      ((if x.ID == id then { x with Running := false } else x) : Container).Networks
        = x.Networks := by
    intro x id
    by_cases hx : (x.ID == id) = true
    · rw [if_pos hx]
    · rw [if_neg hx]
  constructor
  · intro st id fuel hfuel hex hsafe
    obtain ⟨c, hc, hcid⟩ := hex
    have hany : (st.any fun c => c.ID == id) = true :=
      List.any_eq_true.mpr ⟨c, hc, beq_iff_eq.mpr hcid⟩
    have hstop : containerStop st id
        = .ok (st.map fun c => if c.ID == id then { c with Running := false } else c) := by
      simp only [containerStop]
      rw [hany]
      rfl
    have hany2 : ((st.map fun c => if c.ID == id then { c with Running := false } else c).any
        fun c => c.ID == id) = true := by
      refine List.any_eq_true.mpr ⟨_, List.mem_map_of_mem _ hc, ?_⟩
      rw [hfid c id]
      exact beq_iff_eq.mpr hcid
    have hremove : removeBestEffort
          (st.map fun c => if c.ID == id then { c with Running := false } else c) id
        = (st.map fun c => if c.ID == id then { c with Running := false } else c).filter
            fun c => c.ID != id := by
      simp only [removeBestEffort, containerRemove]
      rw [hany2]
      rfl
    have hsafe2 : ∀ x ∈ (st.map fun c =>
          if c.ID == id then { c with Running := false } else c).filter fun c => c.ID != id,
        parseContainerInfo x ≠ .nilDerefPanic := by
      intro x hx
      have hx1 := (List.mem_filter.mp hx).1
      obtain ⟨y, hy, hyx⟩ := List.mem_map.mp hx1
      subst hyx
      refine parse_safe_of _ ?_
      rw [hflab y id, hfnet y id]
      exact hsafe y hy
    obtain ⟨nodes, hlist⟩ := listNodesLoop_ok_of_safe _ hsafe2
    have hanynodes : (nodes.any fun n => n.ContainerID == id) = false := by
      cases hb : nodes.any fun n => n.ContainerID == id with
      | false => rfl
      | true =>
        exfalso
        obtain ⟨n, hn, hnid⟩ := List.any_eq_true.mp hb
        obtain ⟨x, hxmem, hxid⟩ := listNodesLoop_containerIDs _ nodes hlist n hn
        have hxne := (List.mem_filter.mp hxmem).2
        rw [hxid] at hnid
        have hxeq : x.ID = id := beq_iff_eq.mp hnid
        rw [hxeq] at hxne
        simp at hxne
    rcases fuel with _ | k
    · exact absurd hfuel (by decide)
    · have hpoll : removePollLoop (removeBestEffort
          (st.map fun c => if c.ID == id then { c with Running := false } else c) id)
          id (k + 1) = .ok () := by
        rw [hremove]
        exact removePollLoop_ok _ id k nodes hlist hanynodes
      calc RemoveNode st id (k + 1)
          = removePhase (st.map fun c =>
              if c.ID == id then { c with Running := false } else c) id (k + 1) :=
            RemoveNode_stop_ok st id (k + 1) _ hstop
        _ = .ok (removeBestEffort (st.map fun c =>
              if c.ID == id then { c with Running := false } else c) id) :=
            removePhase_ok _ id (k + 1) hpoll
        _ = .ok ((st.map fun c => if c.ID == id then { c with Running := false } else c).filter
              fun c => c.ID != id) := by rw [hremove]
  · intro st id fuel hnone
    have hany : (st.any fun c => c.ID == id) = false := by
      cases hb : st.any fun c => c.ID == id with
      | false => rfl
      | true =>
        exfalso
        obtain ⟨c, hc, hcid⟩ := List.any_eq_true.mp hb
        exact hnone c hc (beq_iff_eq.mp hcid)
    have hstop : containerStop st id = .error "No such container" := by
      simp only [containerStop]
      rw [hany]
      rfl
    exact RemoveNode_stop_error st id fuel _ hstop

/-- Concrete instantiation of `C4_RemoveNode_amended`: removing a present
(already stopped) node succeeds. -/
theorem C4_RemoveNode_amended_witness :
    RemoveNode [⟨"n1", [("com.couchbase.dyncluster.cluster_id", "cl")], [⟨"10.0.0.2"⟩],
        false, []⟩] "n1" 1 = .ok [] :=
  C4_RemoveNode_amended.1
    [⟨"n1", [("com.couchbase.dyncluster.cluster_id", "cl")], [⟨"10.0.0.2"⟩], false, []⟩]
    "n1" 1 (by decide)
    ⟨⟨"n1", [("com.couchbase.dyncluster.cluster_id", "cl")], [⟨"10.0.0.2"⟩], false, []⟩,
      List.mem_singleton.mpr rfl, rfl⟩
    (by decide)

/-! ## Packet-filter control (`controller.go`: `execIptables`,
`SetTrafficControl`)

Commands executed inside the container are modelled by an oracle
(`ExecEnv.results`) giving the success of the i-th executed command, a
command trace, and the container's INPUT chain, to which a successful
iptables command applies its effect (`-F` clears, `-I` inserts at the
head, `-S` only prints). -/

inductive RuleTarget where
  | accept
  | drop
deriving DecidableEq, Repr

/-- One `INPUT` rule: match on the source specification (an exact address
or a CIDR range), jump to the target. -/
structure IptablesRule where
  source : String
  target : RuleTarget
deriving DecidableEq, Repr

abbrev Chain : Type := List IptablesRule

/-- The iptables invocations `SetTrafficControl` issues. -/
inductive IptablesCmd where
  | flush
  | insert (source : String) (target : RuleTarget)
  | list
deriving DecidableEq, Repr

/-- Effect of a successful iptables command on the INPUT chain: `-F`
clears it, `-I INPUT …` inserts at the head (highest priority), `-S` is a
read-only print. -/
def applyIptablesCmd (ch : Chain) : IptablesCmd → Chain
  | .flush => []
  | .insert src tgt => ⟨src, tgt⟩ :: ch
  | .list => ch

/-- Commands observable in a container's exec trace. -/
inductive ExecCmd where
  | iptables (cmd : IptablesCmd)
  | aptGetUpdate
  | aptGetInstallIptables
deriving DecidableEq, Repr

/-- The environment decides whether the i-th executed command succeeds
(an iptables run fails e.g. when the tool is not installed). -/
structure ExecEnv where
  results : Nat → Bool

/-- Execution state threaded through `execCmd` calls. -/
structure ExecSt where
  idx : Nat
  chain : Chain
  trace : List ExecCmd

/-- `execCmd` (`controller.go` 314-320): run one command in the container;
on success an iptables command takes effect on the chain. -/
def runCmd (env : ExecEnv) (st : ExecSt) (cmd : ExecCmd) : Bool × ExecSt :=
  let ok := env.results st.idx
  let chain :=
    match cmd, ok with
    | .iptables c, true => applyIptablesCmd st.chain c
    | _, _ => st.chain
  (ok, ⟨st.idx + 1, chain, st.trace ++ [cmd]⟩)

/-- `execIptables` (`controller.go` 322-346): try the command; on failure
run `apt-get update` then `apt-get -y install iptables` (each failure
fatal), then retry the command exactly once, any failure of the retry
being fatal. -/
def execIptables (env : ExecEnv) (st : ExecSt) (cmd : IptablesCmd) :
    ExecSt × Except String Unit :=
  let (ok, st₁) := runCmd env st (.iptables cmd)
  if ok then (st₁, .ok ())
  else
    let (ok₂, st₂) := runCmd env st₁ .aptGetUpdate
    if !ok₂ then (st₂, .error "failed to update apt")
    else
      let (ok₃, st₃) := runCmd env st₂ .aptGetInstallIptables
      if !ok₃ then (st₃, .error "failed to install iptables")
      else
        let (ok₄, st₄) := runCmd env st₃ (.iptables cmd)
        if ok₄ then (st₄, .ok ())
        else (st₄, .error "failed to execute iptables command")

/-- One IPAM block of the shared network (`netInfo.IPAM.Config[i]`). -/
structure IPAMConfig where
  Subnet : String
  IPRange : String
  Gateway : String
deriving DecidableEq, Repr

/-- The part of `NetworkInspect`'s answer that `SetTrafficControl`
reads. -/
structure NetworkInfo where
  IPAM : List IPAMConfig
deriving DecidableEq, Repr

/-- `ipRange := ipamConfig.Subnet; if ipamConfig.IPRange != "" { ipRange =
ipamConfig.IPRange }`: the explicit allocation range wins over the full
subnet. -/
def resolvedRange (cfg : IPAMConfig) : String :=
  if cfg.IPRange ≠ "" then cfg.IPRange else cfg.Subnet

inductive TCErr where
  | ambiguousIpam
  | missingAddressing
  | clearFailed
  | ruleFailed
deriving DecidableEq, Repr

/-- `SetTrafficControl` (`controller.go` 348-399) after a successful
`NetworkInspect`: reject when the network has fewer than one IPAM block
(the code's `len(netInfo.IPAM.Config) < 1` — its message says "more than
one ipam config"), resolve gateway and range from the FIRST block, reject
when either is empty, clear the chain, and when `blocked` insert the
range-wide DROP rule and then the gateway ACCEPT rule (each `-I` putting
its rule at the head); the final `-S` print's failure is only logged. -/
def SetTrafficControl (netInfo : NetworkInfo) (blocked : Bool) (env : ExecEnv)
    (st : ExecSt) : ExecSt × Except TCErr Unit :=
  match netInfo.IPAM with
  | [] => (st, .error .ambiguousIpam)
  | ipamConfig :: _ =>
    if resolvedRange ipamConfig = "" ∨ ipamConfig.Gateway = "" then
      (st, .error .missingAddressing)
    else
      match execIptables env st .flush with
      | (st₁, .error _) => (st₁, .error .clearFailed)
      | (st₁, .ok _) =>
        if blocked then
          match execIptables env st₁ (.insert (resolvedRange ipamConfig) .drop) with
          | (st₂, .error _) => (st₂, .error .ruleFailed)
          | (st₂, .ok _) =>
            match execIptables env st₂ (.insert ipamConfig.Gateway .accept) with
            | (st₃, .error _) => (st₃, .error .ruleFailed)
            | (st₃, .ok _) => ((execIptables env st₃ .list).1, .ok ())
        else ((execIptables env st₁ .list).1, .ok ())

/-- First-match evaluation of an INPUT chain on a packet's source address;
`m addr spec` says whether `addr` matches the rule source `spec` (exact
address or CIDR membership — iptables' matching, kept abstract). `none`
means no rule matched (default policy). -/
def evalChain (m : String → String → Bool) : Chain → String → Option RuleTarget
  | [], _ => none
  | r :: rs, addr => if m addr r.source then some r.target else evalChain m rs addr

/-- The all-commands-succeed environment. -/
def allOk : ExecEnv := ⟨fun _ => true⟩

/-- C5: the code does not reject a network with more than one addressing
block — it silently uses the first block (first conjunct: two IPAM
configs, full success, no configuration error), while the "more than one
ipam config" error is returned exactly when there are zero blocks (second
conjunct), contradicting the claim and the code's own error message. -/
theorem C5_ambiguous_ipam_not_rejected :
    (SetTrafficControl
        ⟨[⟨"10.1.0.0/16", "", "10.1.0.1"⟩, ⟨"10.2.0.0/16", "", "10.2.0.1"⟩]⟩
        true allOk ⟨0, [], []⟩).2 = .ok () ∧
    (∀ (blocked : Bool) (env : ExecEnv) (st : ExecSt),
      SetTrafficControl ⟨[]⟩ blocked env st = (st, .error .ambiguousIpam)) := by
  constructor
  · rfl
  · intro blocked env st
    rfl

/-- C6: with `blocked = true` and a well-configured network, the rules are
installed after clearing, leaving the gateway ACCEPT rule above the
range-wide DROP rule, so a packet from the gateway address is accepted and
a packet from any other address in the node range is dropped. -/
theorem C6_SetTrafficControl_blocked_gateway_over_range
    (cfg : IPAMConfig) (rest : List IPAMConfig) (st : ExecSt)
    (hrange : resolvedRange cfg ≠ "") (hgw : cfg.Gateway ≠ "") :
    (SetTrafficControl ⟨cfg :: rest⟩ true allOk st).2 = .ok () ∧
    (SetTrafficControl ⟨cfg :: rest⟩ true allOk st).1.chain
        = [⟨cfg.Gateway, .accept⟩, ⟨resolvedRange cfg, .drop⟩] ∧
    (∀ m : String → String → Bool,
      m cfg.Gateway cfg.Gateway = true →
        evalChain m (SetTrafficControl ⟨cfg :: rest⟩ true allOk st).1.chain cfg.Gateway
          = some .accept) ∧
    (∀ (m : String → String → Bool) (addr : String),
      m addr cfg.Gateway = false → m addr (resolvedRange cfg) = true →
        evalChain m (SetTrafficControl ⟨cfg :: rest⟩ true allOk st).1.chain addr
          = some .drop) := by
  have hcond : ¬(resolvedRange cfg = "" ∨ cfg.Gateway = "") := not_or.mpr ⟨hrange, hgw⟩
  have hres : (SetTrafficControl ⟨cfg :: rest⟩ true allOk st).2 = .ok () := by
    simp only [SetTrafficControl]
    rw [if_neg hcond]
    rfl
  have hchain : (SetTrafficControl ⟨cfg :: rest⟩ true allOk st).1.chain
      = [⟨cfg.Gateway, .accept⟩, ⟨resolvedRange cfg, .drop⟩] := by
    simp only [SetTrafficControl]
    rw [if_neg hcond]
    rfl
  refine ⟨hres, hchain, fun m hm => ?_, fun m addr hm1 hm2 => ?_⟩
  · rw [hchain]
    simp only [evalChain]
    rw [hm]
    rfl
  · rw [hchain]
    simp only [evalChain]
    rw [hm1, hm2]
    rfl

/-- Concrete instantiation of
`C6_SetTrafficControl_blocked_gateway_over_range` with an explicit CIDR
matcher: the gateway packet is accepted, another in-range packet is
dropped. -/
theorem C6_SetTrafficControl_blocked_gateway_over_range_witness :
    evalChain (fun a s => a == s || (a == "10.5.0.7" && s == "10.5.0.0/16"))
        (SetTrafficControl ⟨[⟨"10.5.0.0/16", "", "10.5.0.1"⟩]⟩ true allOk
          ⟨0, [], []⟩).1.chain "10.5.0.1" = some .accept ∧
    evalChain (fun a s => a == s || (a == "10.5.0.7" && s == "10.5.0.0/16"))
        (SetTrafficControl ⟨[⟨"10.5.0.0/16", "", "10.5.0.1"⟩]⟩ true allOk
          ⟨0, [], []⟩).1.chain "10.5.0.7" = some .drop :=
  ⟨(C6_SetTrafficControl_blocked_gateway_over_range ⟨"10.5.0.0/16", "", "10.5.0.1"⟩ []
      ⟨0, [], []⟩ (by decide) (by decide)).2.2.1
      (fun a s => a == s || (a == "10.5.0.7" && s == "10.5.0.0/16")) rfl,
   (C6_SetTrafficControl_blocked_gateway_over_range ⟨"10.5.0.0/16", "", "10.5.0.1"⟩ []
      ⟨0, [], []⟩ (by decide) (by decide)).2.2.2
      (fun a s => a == s || (a == "10.5.0.7" && s == "10.5.0.0/16")) "10.5.0.7" rfl rfl⟩

/-- C7: `execIptables` remediates at most once and retries exactly once.
The four cases fully characterize the call: first attempt succeeds (no
remediation); `apt-get update` fails (fatal); the install fails (fatal);
remediation succeeds and the single retry decides — its failure is fatal
and surfaced, with no second remediation ever appearing in the trace. -/
theorem C7_execIptables_single_retry (env : ExecEnv) (st : ExecSt) (cmd : IptablesCmd) :
    (env.results st.idx = true →
      (execIptables env st cmd).1.trace = st.trace ++ [.iptables cmd] ∧
      (execIptables env st cmd).2 = .ok ()) ∧
    (env.results st.idx = false → env.results (st.idx + 1) = false →
      (execIptables env st cmd).1.trace = st.trace ++ [.iptables cmd] ++ [.aptGetUpdate] ∧
      (execIptables env st cmd).2 = .error "failed to update apt") ∧
    (env.results st.idx = false → env.results (st.idx + 1) = true →
        env.results (st.idx + 2) = false →
      (execIptables env st cmd).1.trace
          = st.trace ++ [.iptables cmd] ++ [.aptGetUpdate] ++ [.aptGetInstallIptables] ∧
      (execIptables env st cmd).2 = .error "failed to install iptables") ∧
    (env.results st.idx = false → env.results (st.idx + 1) = true →
        env.results (st.idx + 2) = true →
      (execIptables env st cmd).1.trace
          = st.trace ++ [.iptables cmd] ++ [.aptGetUpdate] ++ [.aptGetInstallIptables]
            ++ [.iptables cmd] ∧
      (env.results (st.idx + 3) = true → (execIptables env st cmd).2 = .ok ()) ∧
      (env.results (st.idx + 3) = false →
        (execIptables env st cmd).2 = .error "failed to execute iptables command")) := by
  refine ⟨fun h1 => ?_, fun h1 h2 => ?_, fun h1 h2 h3 => ?_, fun h1 h2 h3 => ?_⟩
  · simp only [execIptables, runCmd]
    rw [h1]
    exact ⟨rfl, rfl⟩
  · simp only [execIptables, runCmd]
    rw [h1, h2]
    exact ⟨rfl, rfl⟩
  · simp only [execIptables, runCmd]
    rw [h1, h2, h3]
    exact ⟨rfl, rfl⟩
  · simp only [execIptables, runCmd]
    rw [h1, h2, h3]
    refine ⟨?_, fun h4 => ?_, fun h4 => ?_⟩
    · cases h4 : env.results (st.idx + 1 + 1 + 1) with
      | true => rfl
      | false => rfl
    · rw [h4]
      rfl
    · rw [h4]
      rfl

/-- Concrete instantiation of `C7_execIptables_single_retry`: in a
container where every command fails, the failed first attempt is followed
by one remediation start and the fatal update error. -/
theorem C7_execIptables_single_retry_witness :
    (execIptables ⟨fun _ => false⟩ ⟨0, [], []⟩ .flush).1.trace
        = [] ++ [.iptables .flush] ++ [.aptGetUpdate] ∧
    (execIptables ⟨fun _ => false⟩ ⟨0, [], []⟩ .flush).2 = .error "failed to update apt" :=
  (C7_execIptables_single_retry ⟨fun _ => false⟩ ⟨0, [], []⟩ .flush).2.1 rfl rfl

end Dockerdeploy
